import Mathlib

/-
Verification of the tiered key-value storage wrapper in src/script.js
(the IIFE at lines 11-187).

The embedding models:
  - the in-memory cache `storage._cache` as an association list of own
    properties of a plain JS object (keys unique by construction);
  - the facade operations getItem / setItem / removeItem / clear
    (script.js lines 17-29);
  - the three rebindable persistence helpers persistSet / persistRemove /
    persistClear (lines 33-35) as binding tags plus an interpreter over a
    native backend state;
  - the initialization sequencer init() (lines 153-175) together with
    tryLocalStorage (37-56), tryIndexedDB (71-115) and
    tryAndroidBridge (117-150), over an environment record describing
    which backends are available and what they contain.

Asynchrony is modelled by outcome: init either resolves with a final
storage value or rejects with an error (the latter happens exactly when a
promise rejection escapes uncaught, as with the IndexedDB cursor error,
whose rejected promise is returned from inside a try block without await
at line 80 and therefore bypasses the catch at line 111).
-/

namespace MigStar

/-- Values passed to `storage.setItem`; `String(value)` at script.js:19
coerces them to strings. Numbers are modelled as integers. -/
inductive JSVal
| str (s : String)
| num (n : Int)
| boolean (b : Bool)
| nullv
| undef

/-- The JS `String(value)` coercion used at script.js:19-20. -/
def jsString : JSVal → String
  | .str s => s
  | .num n => toString n
  | .boolean b => cond b "true" "false"
  | .nullv => "null"
  | .undef => "undefined"

/-- The own properties of the plain-object cache `storage._cache`
(script.js:14), as an association list with unique keys. -/
abbrev Cache := List (String × String)

/-- Plain own-property creation or update on the cache object. -/
def cacheSetOwn : Cache → String → String → Cache
  | [], k, v => [(k, v)]
  | (k0, v0) :: rest, k, v =>
    if k0 = k then (k0, v) :: rest else (k0, v0) :: cacheSetOwn rest k v

/-- JS property write `this._cache[key] = v` (script.js:19 and the bulk
loaders at lines 47, 84, 141, 170): update in place when the key is
already an own property, otherwise create one — except for the key
"__proto__", whose assignment on a plain object dispatches to the
inherited Object.prototype accessor: the setter ignores a string value,
so nothing is stored and no own property is created. -/
def cacheSet (c : Cache) (k v : String) : Cache :=
  if k = "__proto__" then c else cacheSetOwn c k v

/-- Own-property read `this._cache[key]` restricted to own properties:
`some v` when the key is an own property with value v, else `none`. -/
def cacheGet : Cache → String → Option String
  | [], _ => none
  | (k0, v0) :: rest, k => if k0 = k then some v0 else cacheGet rest k

/-- JS `delete this._cache[key]` (script.js:23): drop the own property. -/
def cacheRemove : Cache → String → Cache
  | [], _ => []
  | (k0, v0) :: rest, k =>
    if k0 = k then cacheRemove rest k else (k0, v0) :: cacheRemove rest k

/-- Own-property membership on the cache object (auxiliary: the semantic
test the inherited Object.prototype.hasOwnProperty method performs). -/
def cacheHasOwn (c : Cache) (k : String) : Bool :=
  (cacheGet c k).isSome

/-- Message of the TypeError thrown when a stored string shadows the
inherited hasOwnProperty method and is called. -/
def typeErrorMsg : String := "TypeError"

/-- The method call `this._cache.hasOwnProperty(key)` (script.js:17).
Property lookup on the cache finds an own property first: once setItem
(or a loader) has stored a string under the key hasOwnProperty, the
lookup yields that string and calling it throws a TypeError; otherwise
the inherited Object.prototype method answers own-property membership of
`key`. -/
def hasOwnPropertyCall (c : Cache) (k : String) : Except String Bool :=
  if cacheHasOwn c "hasOwnProperty" then Except.error typeErrorMsg
  else Except.ok (cacheHasOwn c k)

/-- A selection of inherited `Object.prototype` property names: present on
every plain JS object through the prototype chain, but never own
properties of `storage._cache`, so `hasOwnProperty` is false for them. -/
def protoProps : List String :=
  ["constructor", "hasOwnProperty", "isPrototypeOf", "propertyIsEnumerable",
   "toLocaleString", "toString", "valueOf"]

/-- Binding state of the mutable helper `persistSet` (script.js:33,49,88,
128,130,132): which backend write, if any, a facade set dispatches to. -/
inductive SetB
| noop       -- initial `(k,v)=>{}` (script.js:33)
| lsSet      -- localStorage.setItem wrapped in try/catch (script.js:49)
| idbSet     -- fresh readwrite transaction put (script.js:88-93)
| brSetItem  -- api.setItem wrapped in try/catch (script.js:128)
| brSet      -- api.set wrapped in try/catch (script.js:130)
| brWarn     -- bridge without any write method: warn only (script.js:132)

/-- Binding state of `persistRemove` (script.js:34,50,94,135). The bridge
variant remembers whether `api.removeItem` exists (script.js:135). -/
inductive RemB
| noop
| lsRem
| idbRem
| brRem (hasRemoveItem : Bool)

/-- Binding state of `persistClear` (script.js:35,51,100). The bridge path
never rebinds persistClear, so it has no bridge variant. -/
inductive ClrB
| noop
| lsClr
| idbClr

/-- The facade singleton `storage` (script.js:12-30): backend tag, cache,
and the current persistence bindings. -/
structure Storage where
  backend : String
  cache : Cache
  setB : SetB
  remB : RemB
  clrB : ClrB

/-- Contents of the native backends, for interpreting the bound
persistence operations after initialization. -/
structure Native where
  ls : Cache
  idb : Cache
  bridge : Cache

/-- Run the bound `persistSet` (script.js:33,49,88,128,130,132). Every
binding wraps its native call in try/catch, so a failing call (modelled by
`fails`) leaves the native state unchanged and never propagates. -/
def persistSetRun (b : SetB) (fails : Bool) (n : Native) (k v : String) : Native :=
  if fails then n
  else
    match b with
    | .noop => n
    | .lsSet => { n with ls := cacheSet n.ls k v }
    | .idbSet => { n with idb := cacheSet n.idb k v }
    | .brSetItem => { n with bridge := cacheSet n.bridge k v }
    | .brSet => { n with bridge := cacheSet n.bridge k v }
    | .brWarn => n

/-- Run the bound `persistRemove` (script.js:34,50,94,135). -/
def persistRemoveRun (b : RemB) (fails : Bool) (n : Native) (k : String) : Native :=
  if fails then n
  else
    match b with
    | .noop => n
    | .lsRem => { n with ls := cacheRemove n.ls k }
    | .idbRem => { n with idb := cacheRemove n.idb k }
    | .brRem hasRem => if hasRem then { n with bridge := cacheRemove n.bridge k } else n

/-- Run the bound `persistClear` (script.js:35,51,100). -/
def persistClearRun (b : ClrB) (fails : Bool) (n : Native) : Native :=
  if fails then n
  else
    match b with
    | .noop => n
    | .lsClr => { n with ls := [] }
    | .idbClr => { n with idb := [] }

/-- `storage.getItem(key)` (script.js:17): own-property check on the
cache, returning the cached value or null; never touches the backend.
The hasOwnProperty call itself can throw (stored key shadowing the
method) and getItem has no handler, so that TypeError propagates. -/
def getItem (s : Storage) (key : String) : Except String (Option String) :=
  match hasOwnPropertyCall s.cache key with
  | Except.error e => Except.error e
  | Except.ok true => Except.ok (cacheGet s.cache key)
  | Except.ok false => Except.ok none

/-- `storage.setItem(key, value)` (script.js:18-21): coerce to string,
write through to the cache unconditionally, then dispatch the bound
persistence write (fire and forget). -/
def setItem (fails : Bool) (st : Storage × Native) (key : String) (value : JSVal) :
    Storage × Native :=
  ({ st.1 with cache := cacheSet st.1.cache key (jsString value) },
   persistSetRun st.1.setB fails st.2 key (jsString value))

/-- `storage.removeItem(key)` (script.js:22-25). -/
def removeItem (fails : Bool) (st : Storage × Native) (key : String) :
    Storage × Native :=
  ({ st.1 with cache := cacheRemove st.1.cache key },
   persistRemoveRun st.1.remB fails st.2 key)

/-- `storage.clear()` (script.js:26-29): reset the cache to a fresh empty
object, then dispatch the bound persistence clear. -/
def clearStore (fails : Bool) (st : Storage × Native) : Storage × Native :=
  ({ st.1 with cache := [] }, persistClearRun st.1.clrB fails st.2)

/-- One facade mutation call. -/
inductive Op
| set (k : String) (v : JSVal)
| remove (k : String)
| clear

/-- Apply one facade call. -/
def applyOp (fails : Bool) (st : Storage × Native) : Op → Storage × Native
  | .set k v => setItem fails st k v
  | .remove k => removeItem fails st k
  | .clear => clearStore fails st

/-- Apply a sequence of facade calls in order. -/
def applyOps (fails : Bool) : Storage × Native → List Op → Storage × Native
  | st, [] => st
  | st, op :: rest => applyOps fails (applyOp fails st op) rest

/-- The effect (if any) of a single call on the key `k`: `some (some v)`
when it sets k to v, `some none` when it removes k or clears, `none` when
it does not affect k. -/
def opAt (op : Op) (k : String) : Option (Option String) :=
  match op with
  | .set k0 v => if k0 = k then some (some (jsString v)) else none
  | .remove k0 => if k0 = k then some none else none
  | .clear => some none

/-- The effect of the last call in `ops` affecting key `k`, if any. -/
def lastOpValue : List Op → String → Option (Option String)
  | [], _ => none
  | op :: rest, k =>
    match lastOpValue rest k with
    | some r => some r
    | none => opAt op k

theorem cacheGet_setOwn_self (c : Cache) (k v : String) :
    cacheGet (cacheSetOwn c k v) k = some v := by
  induction c with
  | nil => simp [cacheSetOwn, cacheGet]
  | cons p rest ih =>
    by_cases h : p.1 = k
    · simp [cacheSetOwn, cacheGet, h]
    · simp [cacheSetOwn, cacheGet, h, ih]

theorem cacheGet_setOwn_ne (c : Cache) (k k2 v : String) (h : k ≠ k2) :
    cacheGet (cacheSetOwn c k v) k2 = cacheGet c k2 := by
  induction c with
  | nil => simp [cacheSetOwn, cacheGet, h]
  | cons p rest ih =>
    by_cases h0 : p.1 = k
    · simp [cacheSetOwn, cacheGet, h0, h]
    · simp [cacheSetOwn, cacheGet, h0, ih]

/-- A write to any key other than the accessor-guarded key behaves as an
own-property write. -/
theorem cacheGet_set_self (c : Cache) (k v : String) (h : k ≠ "__proto__") :
    cacheGet (cacheSet c k v) k = some v := by
  rw [cacheSet, if_neg h]
  exact cacheGet_setOwn_self c k v

theorem cacheGet_set_ne (c : Cache) (k k2 v : String) (h : k ≠ k2) :
    cacheGet (cacheSet c k v) k2 = cacheGet c k2 := by
  by_cases hp : k = "__proto__"
  · rw [cacheSet, if_pos hp]
  · rw [cacheSet, if_neg hp]
    exact cacheGet_setOwn_ne c k k2 v h

theorem cacheGet_remove_self (c : Cache) (k : String) :
    cacheGet (cacheRemove c k) k = none := by
  induction c with
  | nil => simp [cacheRemove, cacheGet]
  | cons p rest ih =>
    by_cases h : p.1 = k
    · simp [cacheRemove, h, ih]
    · simp [cacheRemove, cacheGet, h, ih]

theorem cacheGet_remove_ne (c : Cache) (k k2 : String) (h : k ≠ k2) :
    cacheGet (cacheRemove c k) k2 = cacheGet c k2 := by
  induction c with
  | nil => simp [cacheRemove]
  | cons p rest ih =>
    by_cases h0 : p.1 = k
    · subst h0
      simp [cacheRemove, cacheGet, ih, h]
    · simp [cacheRemove, cacheGet, h0, ih]

/-- While no own property shadows the hasOwnProperty method, getItem is
the own-property read. -/
theorem getItem_eq (s : Storage) (k : String)
    (hw : cacheHasOwn s.cache "hasOwnProperty" = false) :
    getItem s k = Except.ok (cacheGet s.cache k) := by
  unfold getItem hasOwnPropertyCall
  rw [hw]
  simp only [Bool.false_eq_true, if_false]
  cases h : cacheGet s.cache k <;> simp [cacheHasOwn, h]

/-- Once an own property named hasOwnProperty is stored, every getItem
call throws the TypeError. -/
theorem getItem_throw (s : Storage) (k : String)
    (hw : cacheHasOwn s.cache "hasOwnProperty" = true) :
    getItem s k = Except.error typeErrorMsg := by
  unfold getItem hasOwnPropertyCall
  rw [hw]
  simp

/-- The cache after a call sequence holds, at each key other than the
accessor-guarded one, the value dictated by the last call affecting that
key, falling back to the initial cache. -/
theorem cacheGet_applyOps (fails : Bool) :
    ∀ (ops : List Op) (st : Storage × Native) (k : String), k ≠ "__proto__" →
    cacheGet (applyOps fails st ops).1.cache k =
      (match lastOpValue ops k with
       | some r => r
       | none => cacheGet st.1.cache k) := by
  intro ops
  induction ops with
  | nil => intro st k _; rfl
  | cons op rest ih =>
    intro st k hkp
    show cacheGet (applyOps fails (applyOp fails st op) rest).1.cache k = _
    rw [ih _ _ hkp]
    cases hr : lastOpValue rest k with
    | some r => simp [lastOpValue, hr]
    | none =>
      simp only [lastOpValue, hr]
      cases op with
      | set k0 v =>
        by_cases hk : k0 = k
        · subst hk
          simp [applyOp, setItem, opAt, cacheGet_set_self _ _ _ hkp]
        · simp [applyOp, setItem, opAt, hk, cacheGet_set_ne _ _ _ _ hk]
      | remove k0 =>
        by_cases hk : k0 = k
        · subst hk
          simp [applyOp, removeItem, opAt, cacheGet_remove_self]
        · simp [applyOp, removeItem, opAt, hk, cacheGet_remove_ne _ _ _ hk]
      | clear =>
        simp [applyOp, clearStore, opAt, cacheGet]

/-- A key affected by no call in the sequence — any key, the
accessor-guarded one included — keeps its initial cache entry. -/
theorem cacheGet_applyOps_none (fails : Bool) :
    ∀ (ops : List Op) (st : Storage × Native) (k : String),
    lastOpValue ops k = none →
    cacheGet (applyOps fails st ops).1.cache k = cacheGet st.1.cache k := by
  intro ops
  induction ops with
  | nil => intro st k _; rfl
  | cons op rest ih =>
    intro st k h
    have hr : lastOpValue rest k = none := by
      cases hrr : lastOpValue rest k with
      | none => rfl
      | some r => simp [lastOpValue, hrr] at h
    have hop : opAt op k = none := by
      simpa [lastOpValue, hr] using h
    show cacheGet (applyOps fails (applyOp fails st op) rest).1.cache k = _
    rw [ih _ _ hr]
    cases op with
    | set k0 v =>
      have hk0 : k0 ≠ k := by
        intro he; subst he; simp [opAt] at hop
      simp [applyOp, setItem, cacheGet_set_ne _ _ _ _ hk0]
    | remove k0 =>
      have hk0 : k0 ≠ k := by
        intro he; subst he; simp [opAt] at hop
      simp [applyOp, removeItem, cacheGet_remove_ne _ _ _ hk0]
    | clear => simp [opAt] at hop

theorem applyOps_append (fails : Bool) :
    ∀ (ops ops2 : List Op) (st : Storage × Native),
    applyOps fails st (ops ++ ops2) =
      applyOps fails (applyOps fails st ops) ops2 := by
  intro ops
  induction ops with
  | nil => intro ops2 st; rfl
  | cons op rest ih => intro ops2 st; exact ih ops2 (applyOp fails st op)

/-- The storage component of a run depends only on the initial storage:
neither the native backend contents nor persistence failures influence the
cache, tag, or bindings. -/
theorem applyOps_fst_indep (fails fails2 : Bool) :
    ∀ (ops : List Op) (st st2 : Storage × Native), st.1 = st2.1 →
    (applyOps fails st ops).1 = (applyOps fails2 st2 ops).1 := by
  intro ops
  induction ops with
  | nil => intro st st2 h; exact h
  | cons op rest ih =>
    intro st st2 h
    show (applyOps fails (applyOp fails st op) rest).1 = _
    apply ih
    cases op <;> simp [applyOp, setItem, removeItem, clearStore, h]

/-- Facade mutations touch only the cache: tag and bindings persist. -/
theorem applyOps_fields (fails : Bool) :
    ∀ (ops : List Op) (st : Storage × Native),
    (applyOps fails st ops).1.backend = st.1.backend ∧
    (applyOps fails st ops).1.setB = st.1.setB ∧
    (applyOps fails st ops).1.remB = st.1.remB ∧
    (applyOps fails st ops).1.clrB = st.1.clrB := by
  intro ops
  induction ops with
  | nil => intro st; exact ⟨rfl, rfl, rfl, rfl⟩
  | cons op rest ih =>
    intro st
    have h := ih (applyOp fails st op)
    have hop : (applyOp fails st op).1.backend = st.1.backend ∧
        (applyOp fails st op).1.setB = st.1.setB ∧
        (applyOp fails st op).1.remB = st.1.remB ∧
        (applyOp fails st op).1.clrB = st.1.clrB := by
      cases op <;> simp [applyOp, setItem, removeItem, clearStore]
    exact ⟨h.1.trans hop.1, h.2.1.trans hop.2.1,
           h.2.2.1.trans hop.2.2.1, h.2.2.2.trans hop.2.2.2⟩

/-- With all three bindings at their initial no-op values, a run never
touches any native backend state. -/
theorem applyOps_native_noop (fails : Bool) :
    ∀ (ops : List Op) (st : Storage × Native),
    st.1.setB = SetB.noop → st.1.remB = RemB.noop → st.1.clrB = ClrB.noop →
    (applyOps fails st ops).2 = st.2 := by
  intro ops
  induction ops with
  | nil => intro st _ _ _; rfl
  | cons op rest ih =>
    intro st h1 h2 h3
    show (applyOps fails (applyOp fails st op) rest).2 = st.2
    have hfields : (applyOp fails st op).1.setB = SetB.noop ∧
        (applyOp fails st op).1.remB = RemB.noop ∧
        (applyOp fails st op).1.clrB = ClrB.noop := by
      cases op <;> simp [applyOp, setItem, removeItem, clearStore, h1, h2, h3]
    have hnat : (applyOp fails st op).2 = st.2 := by
      cases op <;>
        simp [applyOp, setItem, removeItem, clearStore, h1, h2, h3,
              persistSetRun, persistRemoveRun, persistClearRun]
    rw [ih _ hfields.1 hfields.2.1 hfields.2.2, hnat]

/-- One Android bridge candidate object (one of the global names scanned
at script.js:119): whether the global exists, which of the methods
setItem / set / getItem / removeItem are functions, and what a getItem
call returns. A `read` result of `none` models null, undefined, or a
caught throw (script.js:139-142). -/
structure BridgeAPI where
  present : Bool
  hasSetItem : Bool
  hasSet : Bool
  hasGetItem : Bool
  hasRemoveItem : Bool
  read : String → Option String

/-- The host environment an initialization run sees: availability and
contents of each backend tier. `lsAvailable` is whether the probe
write+delete round trip at script.js:40-41 succeeds; `idbOpenOk` whether
`indexedDB.open` resolves (script.js:58-69); `idbLoadOk` whether the bulk
read cursor runs to completion, with `idbLoadedCount` entries already
delivered when it errors; `cookieEntries` is `document.cookie` already
split on the `; ` separator (empty when there are no cookies or access
throws, script.js:169). -/
structure Env where
  lsAvailable : Bool
  lsEntries : List (String × String)
  idbOpenOk : Bool
  idbLoadOk : Bool
  idbLoadedCount : Nat
  idbEntries : List (String × String)
  androidStorageApi : BridgeAPI
  androidApi : BridgeAPI
  androidBridgeApi : BridgeAPI
  androidLowerApi : BridgeAPI
  cookieEntries : List String

/-- The probe key written and removed by the localStorage probe
(script.js:39-41). -/
def testKey : String := "__mig_test__"

/-- Net effect of the probe round trip on the localStorage contents: any
pre-existing entry under the probe key is overwritten and then deleted. -/
def lsAfterProbe (entries : List (String × String)) : List (String × String) :=
  entries.filter (fun p => p.1 ≠ testKey)

/-- The localStorage bulk-load loop (script.js:44-48): iterate all
entries in index order; `if (k)` skips a falsy key, i.e. the empty
string. -/
def loadLS : Cache → List (String × String) → Cache
  | c, [] => c
  | c, (k, v) :: rest => loadLS (if k = "" then c else cacheSet c k v) rest

/-- The IndexedDB cursor load (script.js:81-86): insert every (key,
value) delivered by the cursor into the cache, in cursor order. -/
def loadIDB : Cache → List (String × String) → Cache
  | c, [] => c
  | c, (k, v) :: rest => loadIDB (cacheSet c k v) rest

/-- The fixed well-known key list read from an Android bridge
(script.js:137). -/
def keysToTry : List String :=
  ["migstar_user", "migstar_missionPool", "migstar_transactions",
   "migstar_history", "migstar_todayMissions"]

/-- The bridge load loop (script.js:138-143): for each key in `l`, read
it through the bridge and cache the value when it is neither null nor
undefined (and the read does not throw). -/
def loadKeys (readFn : String → Option String) : Cache → List String → Cache
  | c, [] => c
  | c, k :: rest =>
    loadKeys readFn
      (match readFn k with
       | some v => cacheSet c k v
       | none => c) rest

/-- Bridge load over the well-known key list. -/
def loadBridge (c : Cache) (readFn : String → Option String) : Cache :=
  loadKeys readFn c keysToTry

/-- Hex digit value, as used by percent decoding. -/
def hexVal (c : Char) : Option Nat :=
  if '0' ≤ c ∧ c ≤ '9' then some (c.toNat - '0'.toNat)
  else if 'a' ≤ c ∧ c ≤ 'f' then some (c.toNat - 'a'.toNat + 10)
  else if 'A' ≤ c ∧ c ≤ 'F' then some (c.toNat - 'A'.toNat + 10)
  else none

/-- Model of the percent decoding performed by the JS builtin
`decodeURIComponent` (script.js:170): each `%` must be followed by two
hex digits; `none` models the URIError throw on a malformed escape. -/
def percentDecode : List Char → Option (List Char)
  | [] => some []
  | '%' :: rest =>
    match rest with
    | a :: b :: rest2 =>
      match hexVal a, hexVal b with
      | some ha, some hb => (percentDecode rest2).map (fun l => Char.ofNat (16 * ha + hb) :: l)
      | _, _ => none
    | _ => none
  | ch :: rest => (percentDecode rest).map (fun l => ch :: l)

/-- `decodeURIComponent` on a whole string; `none` models a throw. -/
def decodeURIComponentM (s : String) : Option String :=
  (percentDecode s.data).map String.mk

/-- JS `String.prototype.split` on a single separator character. -/
def splitOnChar (sep : Char) : List Char → List (List Char)
  | [] => [[]]
  | c :: rest =>
    let r := splitOnChar sep rest
    if c = sep then [] :: r
    else
      match r with
      | [] => [[c]]
      | h :: t => (c :: h) :: t

/-- The key part of one cookie entry: element 0 of `c.split('=')`
(script.js:169-170). The split result is never empty. -/
def cookieKeyRaw (e : String) : String :=
  match splitOnChar '=' e.data with
  | [] => "undefined"
  | k :: _ => String.mk k

/-- The value part of one cookie entry: element 1 of `c.split('=')`. When
the entry has no `=`, the destructured value is undefined, which
`decodeURIComponent` coerces to the string "undefined". -/
def cookieValRaw (e : String) : String :=
  match splitOnChar '=' e.data with
  | _ :: v :: _ => String.mk v
  | _ => "undefined"

/-- Load one cookie entry (script.js:170): decode key and value; if
either decode throws, the per-entry try/catch skips the entry and the
cache is unchanged. -/
def cookieLoadEntry (c : Cache) (e : String) : Cache :=
  match decodeURIComponentM (cookieKeyRaw e), decodeURIComponentM (cookieValRaw e) with
  | some k, some v => cacheSet c k v
  | _, _ => c

/-- The opportunistic cookie seed loop (script.js:169-170). -/
def loadCookies : Cache → List String → Cache
  | c, [] => c
  | c, e :: rest => loadCookies (cookieLoadEntry c e) rest

/-- A cookie entry is malformed when decoding its key part or its value
part throws. -/
def entryMalformed (e : String) : Prop :=
  decodeURIComponentM (cookieKeyRaw e) = none ∨
  decodeURIComponentM (cookieValRaw e) = none

/-- The storage literal at script.js:12-30: tag `none`, empty cache, and
the initial no-op persistence helpers of lines 33-35. -/
def initialStorage : Storage :=
  { backend := "none", cache := [], setB := SetB.noop,
    remB := RemB.noop, clrB := ClrB.noop }

/-- Outcome of an initialization run: the promise returned by `init()`
either resolves with the storage (script.js:156,160,164,174) or rejects
with an uncaught error. Both carry the trace of values assigned to
`storage.backend` during the run, in assignment order. -/
inductive InitResult
| resolved (s : Storage) (tr : List String)
| rejected (err : String) (s : Storage) (tr : List String)

/-- `tryLocalStorage` (script.js:37-56): on a successful probe round
trip, set the tag, bulk-load all entries, rebind the three persistence
helpers to localStorage, and report success; any probe exception reports
failure with nothing mutated. -/
def tryLocalStorage (env : Env) (s : Storage) (tr : List String) :
    Bool × Storage × List String :=
  if env.lsAvailable then
    (true,
     { s with backend := "localStorage",
              cache := loadLS s.cache (lsAfterProbe env.lsEntries),
              setB := SetB.lsSet, remB := RemB.lsRem, clrB := ClrB.lsClr },
     tr ++ ["localStorage"])
  else (false, s, tr)

/-- `tryIndexedDB` (script.js:71-115). When the open fails, the catch at
line 111 reports failure. When the open succeeds, the tag is assigned
(line 75) before the cursor load; if the cursor then errors, the inner
promise rejects (line 109) and — because line 80 returns that promise
from inside the try block without awaiting it — the rejection bypasses
the catch and escapes as an error carrying the partially loaded state.
Only after the cursor completes are the persistence helpers rebound
(lines 88-105) and success reported. -/
def tryIndexedDB (env : Env) (s : Storage) (tr : List String) :
    Except (String × Storage × List String) (Bool × Storage × List String) :=
  if env.idbOpenOk then
    if env.idbLoadOk then
      .ok (true,
           { s with backend := "indexedDB",
                    cache := loadIDB s.cache env.idbEntries,
                    setB := SetB.idbSet, remB := RemB.idbRem, clrB := ClrB.idbClr },
           tr ++ ["indexedDB"])
    else
      .error ("cursor-error",
              { s with backend := "indexedDB",
                       cache := loadIDB s.cache (env.idbEntries.take env.idbLoadedCount) },
              tr ++ ["indexedDB"])
  else .ok (false, s, tr)

/-- The candidate global names scanned by `tryAndroidBridge`
(script.js:119), with the corresponding environment objects. -/
def candList (env : Env) : List (String × BridgeAPI) :=
  [("AndroidStorage", env.androidStorageApi), ("Android", env.androidApi),
   ("AndroidBridge", env.androidBridgeApi), ("android", env.androidLowerApi)]

/-- The candidate loop of `tryAndroidBridge` (script.js:120-149). For
each present candidate the tag is assigned (line 125) and persistSet
rebound (lines 127-133); only a candidate whose getItem is a function
rebinds persistRemove, loads the well-known keys and returns success
(lines 134-145) — otherwise the loop simply continues, leaving the
already performed assignments in place. -/
def bridgeLoop : Storage → List String → List (String × BridgeAPI) →
    Bool × Storage × List String
  | s, tr, [] => (false, s, tr)
  | s, tr, (name, api) :: rest =>
    if api.present then
      let s1 := { s with backend := "android:" ++ name,
                         setB := if api.hasSetItem then SetB.brSetItem
                                 else if api.hasSet then SetB.brSet
                                 else SetB.brWarn }
      let tr1 := tr ++ ["android:" ++ name]
      if api.hasGetItem then
        (true,
         { s1 with remB := RemB.brRem api.hasRemoveItem,
                   cache := loadBridge s1.cache api.read },
         tr1)
      else bridgeLoop s1 tr1 rest
    else bridgeLoop s tr rest

/-- `init()` (script.js:153-175): probe localStorage, then IndexedDB,
then the Android bridge candidates, in that order, short-circuiting on
the first success; if all fail, seed the cache from cookies and fall back
to the in-memory tier. An uncaught rejection from the IndexedDB phase
propagates out of init, so `storage.ready` rejects. -/
def init (env : Env) : InitResult :=
  match tryLocalStorage env initialStorage [] with
  | (true, s1, tr1) => .resolved s1 tr1
  | (false, s1, tr1) =>
    match tryIndexedDB env s1 tr1 with
    | .error (e, s2, tr2) => .rejected e s2 tr2
    | .ok (true, s2, tr2) => .resolved s2 tr2
    | .ok (false, s2, tr2) =>
      match bridgeLoop s2 tr2 (candList env) with
      | (true, s3, tr3) => .resolved s3 tr3
      | (false, s3, tr3) =>
        .resolved
          { s3 with cache := loadCookies s3.cache env.cookieEntries,
                    backend := "memory" }
          (tr3 ++ ["memory"])

/-- The storage a run resolves with, when readiness resolves. -/
def initStorage (env : Env) : Option Storage :=
  match init env with
  | .resolved s _ => some s
  | .rejected _ _ _ => none

/-- The backend tag after a resolved run. -/
def initBackend (env : Env) : Option String :=
  (initStorage env).map Storage.backend

/-- The trace of backend tag assignments of a resolved run. -/
def initTrace (env : Env) : Option (List String) :=
  match init env with
  | .resolved _ tr => some tr
  | .rejected _ _ _ => none

/-- `getItem` right after a resolved run. -/
def initGet (env : Env) (k : String) : Option (Except String (Option String)) :=
  (initStorage env).map (fun s => getItem s k)

/-- An absent bridge candidate. -/
def noBridge : BridgeAPI :=
  { present := false, hasSetItem := false, hasSet := false,
    hasGetItem := false, hasRemoveItem := false, read := fun _ => none }

/-- An environment with every backend unavailable and no cookies. -/
def baseEnv : Env :=
  { lsAvailable := false, lsEntries := [], idbOpenOk := false,
    idbLoadOk := false, idbLoadedCount := 0, idbEntries := [],
    androidStorageApi := noBridge, androidApi := noBridge,
    androidBridgeApi := noBridge, androidLowerApi := noBridge,
    cookieEntries := [] }

theorem loadLS_get_nmem :
    ∀ (entries : List (String × String)) (c : Cache) (k : String),
    k ∉ entries.map Prod.fst →
    cacheGet (loadLS c entries) k = cacheGet c k := by
  intro entries
  induction entries with
  | nil => intro c k _; rfl
  | cons p rest ih =>
    intro c k h
    obtain ⟨k0, v0⟩ := p
    simp only [List.map_cons, List.mem_cons] at h
    push_neg at h
    show cacheGet (loadLS (if k0 = "" then c else cacheSet c k0 v0) rest) k = _
    rw [ih _ _ h.2]
    by_cases h0 : k0 = ""
    · simp [h0]
    · simp [h0, cacheGet_set_ne _ _ _ _ (Ne.symm h.1)]

/-- Every localStorage entry whose key is nonempty, not the guarded
accessor key, and distinct from all other keys is loaded into the cache
by the bulk-load loop. -/
theorem loadLS_get_mem :
    ∀ (entries : List (String × String)) (c : Cache) (k v : String),
    (k, v) ∈ entries → (entries.map Prod.fst).Nodup → k ≠ "" →
    k ≠ "__proto__" →
    cacheGet (loadLS c entries) k = some v := by
  intro entries
  induction entries with
  | nil => intro c k v h _ _ _; simp at h
  | cons p rest ih =>
    intro c k v hmem hnd hk hkp
    obtain ⟨k0, v0⟩ := p
    simp only [List.map_cons, List.nodup_cons] at hnd
    rcases List.mem_cons.mp hmem with heq | hmem2
    · have h1 : k = k0 := congrArg Prod.fst heq
      have h2 : v = v0 := congrArg Prod.snd heq
      subst h1; subst h2
      show cacheGet (loadLS (if k = "" then c else cacheSet c k v) rest) k = some v
      rw [if_neg hk, loadLS_get_nmem rest _ k hnd.1]
      exact cacheGet_set_self c k v hkp
    · exact ih _ _ _ hmem2 hnd.2 hk hkp

theorem loadIDB_get_nmem :
    ∀ (entries : List (String × String)) (c : Cache) (k : String),
    k ∉ entries.map Prod.fst →
    cacheGet (loadIDB c entries) k = cacheGet c k := by
  intro entries
  induction entries with
  | nil => intro c k _; rfl
  | cons p rest ih =>
    intro c k h
    obtain ⟨k0, v0⟩ := p
    simp only [List.map_cons, List.mem_cons] at h
    push_neg at h
    show cacheGet (loadIDB (cacheSet c k0 v0) rest) k = _
    rw [ih _ _ h.2]
    exact cacheGet_set_ne _ _ _ _ (Ne.symm h.1)

/-- Every entry delivered by the IndexedDB cursor, except one under the
guarded accessor key, is loaded into the cache (cursor keys are unique in
an object store). -/
theorem loadIDB_get_mem :
    ∀ (entries : List (String × String)) (c : Cache) (k v : String),
    (k, v) ∈ entries → (entries.map Prod.fst).Nodup → k ≠ "__proto__" →
    cacheGet (loadIDB c entries) k = some v := by
  intro entries
  induction entries with
  | nil => intro c k v h _ _; simp at h
  | cons p rest ih =>
    intro c k v hmem hnd hkp
    obtain ⟨k0, v0⟩ := p
    simp only [List.map_cons, List.nodup_cons] at hnd
    rcases List.mem_cons.mp hmem with heq | hmem2
    · have h1 : k = k0 := congrArg Prod.fst heq
      have h2 : v = v0 := congrArg Prod.snd heq
      subst h1; subst h2
      show cacheGet (loadIDB (cacheSet c k v) rest) k = some v
      rw [loadIDB_get_nmem rest _ k hnd.1]
      exact cacheGet_set_self c k v hkp
    · exact ih _ _ _ hmem2 hnd.2 hkp

theorem loadKeys_nmem (readFn : String → Option String) :
    ∀ (l : List String) (c : Cache) (k : String), k ∉ l →
    cacheGet (loadKeys readFn c l) k = cacheGet c k := by
  intro l
  induction l with
  | nil => intro c k _; rfl
  | cons k0 rest ih =>
    intro c k h
    simp only [List.mem_cons] at h
    push_neg at h
    show cacheGet (loadKeys readFn (match readFn k0 with
      | some v => cacheSet c k0 v
      | none => c) rest) k = _
    rw [ih _ _ h.2]
    cases hr : readFn k0 with
    | none => rfl
    | some v => exact cacheGet_set_ne _ _ _ _ (Ne.symm h.1)

/-- A well-known key (other than the guarded accessor key) whose bridge
read yields a defined value ends up in the cache with that value. -/
theorem loadKeys_mem (readFn : String → Option String) :
    ∀ (l : List String) (c : Cache) (k v : String),
    k ∈ l → l.Nodup → readFn k = some v → k ≠ "__proto__" →
    cacheGet (loadKeys readFn c l) k = some v := by
  intro l
  induction l with
  | nil => intro c k v h _ _ _; simp at h
  | cons k0 rest ih =>
    intro c k v hmem hnd hr hkp
    simp only [List.nodup_cons] at hnd
    rcases List.mem_cons.mp hmem with heq | hmem2
    · subst heq
      show cacheGet (loadKeys readFn (match readFn k with
        | some v => cacheSet c k v
        | none => c) rest) k = some v
      rw [hr, loadKeys_nmem readFn rest _ k hnd.1]
      exact cacheGet_set_self c k v hkp
    · exact ih _ _ _ hmem2 hnd.2 hr hkp

theorem lastOpValue_append :
    ∀ (ops ops2 : List Op) (k : String),
    lastOpValue (ops ++ ops2) k =
      (match lastOpValue ops2 k with
       | some r => some r
       | none => lastOpValue ops k) := by
  intro ops ops2 k
  induction ops with
  | nil =>
    show lastOpValue ops2 k = _
    cases h : lastOpValue ops2 k <;> simp [h, lastOpValue]
  | cons op rest ih =>
    show (match lastOpValue (rest ++ ops2) k with
          | some r => some r
          | none => opAt op k) = _
    rw [ih]
    cases h2 : lastOpValue ops2 k <;> cases hr : lastOpValue rest k <;>
      simp [lastOpValue, hr]

/-- A malformed cookie entry leaves the cache unchanged. -/
theorem cookieLoadEntry_malformed (c : Cache) (e : String) (h : entryMalformed e) :
    cookieLoadEntry c e = c := by
  unfold cookieLoadEntry
  rcases h with h | h
  · rw [h]
  · rw [h]
    cases decodeURIComponentM (cookieKeyRaw e) <;> rfl

theorem loadCookies_append :
    ∀ (xs : List String) (c : Cache) (ys : List String),
    loadCookies c (xs ++ ys) = loadCookies (loadCookies c xs) ys := by
  intro xs
  induction xs with
  | nil => intro c ys; rfl
  | cons e rest ih => intro c ys; exact ih (cookieLoadEntry c e) ys

/-- The bridge candidates that pass the `window[name]` truthiness check,
in scan order. -/
def presentList (l : List (String × BridgeAPI)) : List (String × BridgeAPI) :=
  l.filter (fun p => p.2.present)

/-- The candidate the bridge loop ultimately succeeds with: the first
present candidate whose getItem is a function. -/
def bridgeSelect (l : List (String × BridgeAPI)) : Option (String × BridgeAPI) :=
  (presentList l).find? (fun p => p.2.hasGetItem)

theorem bridgeLoop_presentNil :
    ∀ (l : List (String × BridgeAPI)) (s : Storage) (tr : List String),
    presentList l = [] → bridgeLoop s tr l = (false, s, tr) := by
  intro l
  induction l with
  | nil => intro s tr _; rfl
  | cons p rest ih =>
    intro s tr h
    obtain ⟨n0, a0⟩ := p
    cases hp : a0.present with
    | true => simp [presentList, List.filter_cons, hp] at h
    | false =>
      have h2 : presentList rest = [] := by
        simpa [presentList, List.filter_cons, hp] using h
      simp only [bridgeLoop, hp, Bool.false_eq_true, if_false]
      exact ih s tr h2

theorem bridgeLoop_notFound :
    ∀ (l : List (String × BridgeAPI)) (s : Storage) (tr : List String),
    bridgeSelect l = none → (bridgeLoop s tr l).1 = false := by
  intro l
  induction l with
  | nil => intro s tr _; rfl
  | cons p rest ih =>
    intro s tr h
    obtain ⟨n0, a0⟩ := p
    cases hp : a0.present with
    | false =>
      have h2 : bridgeSelect rest = none := by
        simpa [bridgeSelect, presentList, List.filter_cons, hp] using h
      simp [bridgeLoop, hp]
      exact ih s tr h2
    | true =>
      cases hg : a0.hasGetItem with
      | true =>
        exfalso
        have : bridgeSelect ((n0, a0) :: rest) = some (n0, a0) := by
          unfold bridgeSelect presentList
          rw [List.filter_cons]
          simp only [hp, if_true]
          exact List.find?_cons_of_pos _ hg
        rw [this] at h
        exact Option.noConfusion h
      | false =>
        have h2 : bridgeSelect rest = none := by
          unfold bridgeSelect presentList at h ⊢
          rw [List.filter_cons] at h
          simp only [hp, if_true] at h
          rwa [List.find?_cons_of_neg _ (by simp [hg])] at h
        simp [bridgeLoop, hp, hg]
        exact ih _ _ h2

/-- When a present candidate with a callable getItem exists, the bridge
loop succeeds with the first such candidate: it reports success, sets the
tag to that candidate, loads the well-known keys through it, and its tag
assignment is the last one of the loop. -/
theorem bridgeLoop_found :
    ∀ (l : List (String × BridgeAPI)) (s : Storage) (tr : List String)
      (name : String) (api : BridgeAPI),
    bridgeSelect l = some (name, api) →
    (bridgeLoop s tr l).1 = true ∧
    (bridgeLoop s tr l).2.1.backend = "android:" ++ name ∧
    (bridgeLoop s tr l).2.1.cache = loadBridge s.cache api.read ∧
    (bridgeLoop s tr l).2.2.getLast? = some ("android:" ++ name) := by
  intro l
  induction l with
  | nil => intro s tr name api h; simp [bridgeSelect, presentList] at h
  | cons p rest ih =>
    intro s tr name api h
    obtain ⟨n0, a0⟩ := p
    cases hp : a0.present with
    | false =>
      have h2 : bridgeSelect rest = some (name, api) := by
        simpa [bridgeSelect, presentList, List.filter_cons, hp] using h
      simp only [bridgeLoop, hp, Bool.false_eq_true, if_false]
      exact ih s tr name api h2
    | true =>
      cases hg : a0.hasGetItem with
      | true =>
        have hsel : bridgeSelect ((n0, a0) :: rest) = some (n0, a0) := by
          unfold bridgeSelect presentList
          rw [List.filter_cons]
          simp only [hp, if_true]
          exact List.find?_cons_of_pos _ hg
        rw [hsel] at h
        have h1 : n0 = name := congrArg Prod.fst (Option.some.inj h)
        have h2 : a0 = api := congrArg Prod.snd (Option.some.inj h)
        subst h1; subst h2
        refine ⟨?_, ?_, ?_, ?_⟩ <;>
          simp [bridgeLoop, hp, hg, loadBridge, List.getLast?_concat]
      | false =>
        have h2 : bridgeSelect rest = some (name, api) := by
          unfold bridgeSelect presentList at h ⊢
          rw [List.filter_cons] at h
          simp only [hp, if_true] at h
          rwa [List.find?_cons_of_neg _ (by simp [hg])] at h
        simp only [bridgeLoop, hp, hg, Bool.false_eq_true, if_false, if_true]
        exact ih _ _ name api h2

/-- When the first present candidate has a callable getItem, the loop
performs exactly one tag assignment. -/
theorem bridgeLoop_firstGet :
    ∀ (l : List (String × BridgeAPI)) (s : Storage) (tr : List String)
      (name : String) (api : BridgeAPI) (rest2 : List (String × BridgeAPI)),
    presentList l = (name, api) :: rest2 → api.hasGetItem = true →
    (bridgeLoop s tr l).1 = true ∧
    (bridgeLoop s tr l).2.2 = tr ++ ["android:" ++ name] := by
  intro l
  induction l with
  | nil => intro s tr name api rest2 h _; simp [presentList] at h
  | cons p rest ih =>
    intro s tr name api rest2 h hg
    obtain ⟨n0, a0⟩ := p
    cases hp : a0.present with
    | false =>
      have h2 : presentList rest = (name, api) :: rest2 := by
        simpa [presentList, List.filter_cons, hp] using h
      simp only [bridgeLoop, hp, Bool.false_eq_true, if_false]
      exact ih s tr name api rest2 h2 hg
    | true =>
      have hhd : (n0, a0) = (name, api) ∧ presentList rest = rest2 := by
        unfold presentList at h
        rw [List.filter_cons] at h
        simp only [hp, if_true] at h
        exact ⟨congrArg (fun l => l.headD (n0, a0)) h, congrArg List.tail h⟩
      have h1 : n0 = name := congrArg Prod.fst hhd.1
      have h2 : a0 = api := congrArg Prod.snd hhd.1
      subst h1; subst h2
      simp [bridgeLoop, hp, hg]

theorem init_ls (env : Env) (h : env.lsAvailable = true) :
    init env = .resolved
      { backend := "localStorage", cache := loadLS [] (lsAfterProbe env.lsEntries),
        setB := SetB.lsSet, remB := RemB.lsRem, clrB := ClrB.lsClr }
      ["localStorage"] := by
  simp [init, tryLocalStorage, h, initialStorage]

theorem init_idb (env : Env) (h1 : env.lsAvailable = false)
    (h2 : env.idbOpenOk = true) (h3 : env.idbLoadOk = true) :
    init env = .resolved
      { backend := "indexedDB", cache := loadIDB [] env.idbEntries,
        setB := SetB.idbSet, remB := RemB.idbRem, clrB := ClrB.idbClr }
      ["indexedDB"] := by
  simp [init, tryLocalStorage, tryIndexedDB, h1, h2, h3, initialStorage]

theorem init_idb_reject (env : Env) (h1 : env.lsAvailable = false)
    (h2 : env.idbOpenOk = true) (h3 : env.idbLoadOk = false) :
    init env = .rejected "cursor-error"
      { backend := "indexedDB",
        cache := loadIDB [] (env.idbEntries.take env.idbLoadedCount),
        setB := SetB.noop, remB := RemB.noop, clrB := ClrB.noop }
      ["indexedDB"] := by
  simp [init, tryLocalStorage, tryIndexedDB, h1, h2, h3, initialStorage]

theorem init_bridge (env : Env) (h1 : env.lsAvailable = false)
    (h2 : env.idbOpenOk = false) :
    init env =
      (match bridgeLoop initialStorage [] (candList env) with
       | (true, s3, tr3) => .resolved s3 tr3
       | (false, s3, tr3) =>
         .resolved
           { s3 with cache := loadCookies s3.cache env.cookieEntries,
                     backend := "memory" }
           (tr3 ++ ["memory"])) := by
  simp [init, tryLocalStorage, tryIndexedDB, h1, h2]

/-- Empty native backend contents. -/
def emptyNative : Native := { ls := [], idb := [], bridge := [] }

/-- C1 counterexample: the claim as stated quantifies over every key, but
a setItem under the key __proto__ stores nothing (the inherited accessor
ignores a string value), so the following getItem returns null rather
than the coerced string of the last set value; and after a setItem under
the key hasOwnProperty, every getItem throws a TypeError instead of
returning a value at all. -/
theorem C1_counterexample :
    getItem (applyOps false (initialStorage, emptyNative)
      [Op.set "__proto__" (JSVal.str "x")]).1 "__proto__" = Except.ok none ∧
    getItem (applyOps false (initialStorage, emptyNative)
      [Op.set "hasOwnProperty" (JSVal.str "x")]).1 "a"
      = Except.error typeErrorMsg := ⟨rfl, rfl⟩

/-- C1 (amended): for every finite sequence of setItem/removeItem/clear
calls and every key k other than __proto__, provided no own property
named hasOwnProperty survives in the final cache, a subsequent getItem(k)
reflects the last operation affecting k — the coerced string of the last
set value, or null after a remove or clear — and the storage component of
the run (hence every getItem result) is independent of the native backend
state and of persistence failures; getItem reads only the in-memory
cache. Writes to __proto__ store nothing, and a surviving write to
hasOwnProperty makes every getItem throw a TypeError instead. -/
theorem C1_cache_first_invariant (fails : Bool) (st : Storage × Native)
    (ops : List Op) (k : String) (r : Option String)
    (h : lastOpValue ops k = some r) (hk : k ≠ "__proto__")
    (hw : cacheHasOwn (applyOps fails st ops).1.cache "hasOwnProperty" = false) :
    getItem (applyOps fails st ops).1 k = Except.ok r ∧
    ∀ (fails2 : Bool) (n2 : Native),
      (applyOps fails st ops).1 = (applyOps fails2 (st.1, n2) ops).1 := by
  constructor
  · rw [getItem_eq _ _ hw, cacheGet_applyOps fails ops st k hk]
    simp only [h]
  · intro fails2 n2
    exact applyOps_fst_indep fails fails2 ops st (st.1, n2) rfl

/-- Witness for C1 (amended) at a concrete call sequence. -/
theorem C1_witness :
    lastOpValue [Op.set "a" (JSVal.str "1"), Op.remove "a",
      Op.set "a" (JSVal.str "2")] "a" = some (some "2") ∧
    getItem (applyOps false (initialStorage, emptyNative)
      [Op.set "a" (JSVal.str "1"), Op.remove "a",
       Op.set "a" (JSVal.str "2")]).1 "a" = Except.ok (some "2") :=
  ⟨rfl,
   (C1_cache_first_invariant false (initialStorage, emptyNative)
     [Op.set "a" (JSVal.str "1"), Op.remove "a", Op.set "a" (JSVal.str "2")]
     "a" (some "2") rfl (by decide) rfl).1⟩

/-- Environment refuting C2: localStorage unavailable, the IndexedDB open
succeeds but its bulk-load cursor errors, and an Android bridge with a
callable getItem is present. -/
def envC2 : Env :=
  { baseEnv with
    idbOpenOk := true
    idbLoadOk := false
    androidStorageApi :=
      { present := true, hasSetItem := true, hasSet := false,
        hasGetItem := true, hasRemoveItem := true, read := fun _ => none } }

/-- C2: evaluation of the code at the failing input. The claim (and the
header comment of script.js) say a cursor failure after a successful open
is treated as a probe failure, the sequencer advances to the host-bridge
probe, and readiness always resolves. In the code, the inner promise is
returned from inside the try block without await (script.js:80), so the
cursor-error rejection bypasses the catch at line 111: init() rejects with
the storage left tagged indexedDB, the bridge is never probed (the
assignment trace is exactly the single indexedDB entry despite the
available bridge), and readiness never resolves. -/
theorem C2_cursor_error_rejects :
    init envC2 = InitResult.rejected "cursor-error"
      { backend := "indexedDB", cache := [], setB := SetB.noop,
        remB := RemB.noop, clrB := ClrB.noop }
      ["indexedDB"] := rfl

/-- C3: probing runs in strict priority order — localStorage, then
IndexedDB, then the bridge candidates, then the in-memory terminal — and
short-circuits on the first success; in particular a successful
localStorage probe makes the reported tier localStorage whatever the
other backends offer. -/
theorem C3_backend_priority (env : Env) :
    (env.lsAvailable = true → initBackend env = some "localStorage") ∧
    (env.lsAvailable = false → env.idbOpenOk = true → env.idbLoadOk = true →
      initBackend env = some "indexedDB") ∧
    (env.lsAvailable = false → env.idbOpenOk = false →
      ∀ (name : String) (api : BridgeAPI),
        bridgeSelect (candList env) = some (name, api) →
        initBackend env = some ("android:" ++ name)) ∧
    (env.lsAvailable = false → env.idbOpenOk = false →
      bridgeSelect (candList env) = none →
      initBackend env = some "memory") := by
  refine ⟨?_, ?_, ?_, ?_⟩
  · intro h
    simp [initBackend, initStorage, init_ls env h]
  · intro h1 h2 h3
    simp [initBackend, initStorage, init_idb env h1 h2 h3]
  · intro h1 h2 name api hsel
    have hinit := init_bridge env h1 h2
    rcases hloop : bridgeLoop initialStorage [] (candList env) with ⟨b, s3, tr3⟩
    rw [hloop] at hinit
    have hb := bridgeLoop_found (candList env) initialStorage [] name api hsel
    rw [hloop] at hb
    have hbtrue : b = true := hb.1
    subst hbtrue
    have hback : s3.backend = "android:" ++ name := hb.2.1
    simp [initBackend, initStorage, hinit, hback]
  · intro h1 h2 hsel
    have hinit := init_bridge env h1 h2
    rcases hloop : bridgeLoop initialStorage [] (candList env) with ⟨b, s3, tr3⟩
    rw [hloop] at hinit
    have hb := bridgeLoop_notFound (candList env) initialStorage [] hsel
    rw [hloop] at hb
    have hbfalse : b = false := hb
    subst hbfalse
    simp [initBackend, initStorage, hinit]

/-- Environment for the C3 witness: localStorage and IndexedDB both
available. -/
def envC3 : Env :=
  { baseEnv with lsAvailable := true, idbOpenOk := true, idbLoadOk := true }

/-- Witness for C3: with both localStorage and IndexedDB available the
reported tier is localStorage. -/
theorem C3_witness : initBackend envC3 = some "localStorage" :=
  (C3_backend_priority envC3).1 rfl

/-- C4 counterexample: the round trip as stated quantifies over every
non-empty key, but at the key __proto__ the write stores nothing and
getItem returns null, and at the key hasOwnProperty the stored string
shadows the method so the following getItem throws a TypeError. -/
theorem C4_counterexample :
    getItem (setItem false (initialStorage, emptyNative) "__proto__"
      (JSVal.str "x")).1 "__proto__" = Except.ok none ∧
    getItem (setItem false (initialStorage, emptyNative) "hasOwnProperty"
      (JSVal.str "x")).1 "hasOwnProperty" = Except.error typeErrorMsg :=
  ⟨rfl, rfl⟩

/-- C4 (amended): round trip — for every non-empty key k other than
__proto__ and hasOwnProperty, and every string value v, a setItem(k, v)
followed by getItem(k) returns exactly v, from any prior storage state
whose cache holds no own hasOwnProperty property, whatever the bound
backend does. At __proto__ the write stores nothing and getItem stays
null; at hasOwnProperty the following getItem throws a TypeError. -/
theorem C4_round_trip (fails : Bool) (st : Storage × Native) (k v : String)
    (_hk : k ≠ "") (hk2 : k ≠ "__proto__") (hk3 : k ≠ "hasOwnProperty")
    (hw : cacheHasOwn st.1.cache "hasOwnProperty" = false) :
    getItem (setItem fails st k (JSVal.str v)).1 k = Except.ok (some v) := by
  have hw2 : cacheHasOwn (setItem fails st k (JSVal.str v)).1.cache
      "hasOwnProperty" = false := by
    show cacheHasOwn (cacheSet st.1.cache k (jsString (JSVal.str v)))
      "hasOwnProperty" = false
    unfold cacheHasOwn
    rw [cacheGet_set_ne _ _ _ _ hk3]
    exact hw
  rw [getItem_eq _ _ hw2]
  show Except.ok (cacheGet (cacheSet st.1.cache k (jsString (JSVal.str v))) k)
    = Except.ok (some v)
  rw [cacheGet_set_self _ _ _ hk2]
  rfl

/-- Witness for C4 (amended) at a concrete key and value. -/
theorem C4_witness :
    ("a" : String) ≠ "" ∧
    getItem (setItem false (initialStorage, emptyNative) "a"
      (JSVal.str "xyz")).1 "a" = Except.ok (some "xyz") :=
  ⟨by decide,
   C4_round_trip false (initialStorage, emptyNative) "a" "xyz" (by decide)
     (by decide) (by decide) rfl⟩

/-- Environment refuting C5: every backend is unavailable in the spec's
sense — the localStorage probe fails, the IndexedDB open fails, and the
only bridge candidate global, while present, lacks a callable getItem
(availability requires the object and a read method) — so the run falls
back to the memory tier. -/
def envC5bad : Env :=
  { baseEnv with
    androidApi :=
      { present := true, hasSetItem := true, hasSet := false,
        hasGetItem := false, hasRemoveItem := false, read := fun _ => none } }

/-- The storage the envC5bad run resolves with: memory tag, but persistSet
left rebound to the bridge write by script.js:127-128. -/
def sC5bad : Storage :=
  { backend := "memory", cache := [], setB := SetB.brSetItem,
    remB := RemB.noop, clrB := ClrB.noop }

/-- C5 counterexample: with all backends unavailable (the bridge present
but without getItem, hence failing its probe), the run resolves and
backendKind() reports memory — but a setItem then writes through to the
bridge's native store, because the candidate loop rebound persistSet
(script.js:127-133) before the getItem check failed. The facade does not
operate purely against the in-memory cache, refuting the claim. -/
theorem C5_counterexample :
    initStorage envC5bad = some sC5bad ∧
    (applyOps false (sC5bad, emptyNative)
      [Op.set "a" (JSVal.str "1")]).2.bridge = [("a", "1")] := ⟨rfl, rfl⟩

/-- C5 (amended): when the localStorage probe fails, the IndexedDB open
fails, and no bridge candidate global is present at all, initialization
still resolves, the tag reports the in-memory terminal tier, all three
persistence bindings stay at their initial no-ops, and any sequence of
facade calls mutates only the cache, leaving every native backend
untouched. When a bridge global is present but unusable, the run still
resolves to the memory tag but persistSet stays rebound to the bridge
write, so mutations are no longer purely cache-local. -/
theorem C5_memory_fallback (env : Env) (h1 : env.lsAvailable = false)
    (h2 : env.idbOpenOk = false) (h3 : presentList (candList env) = []) :
    initBackend env = some "memory" ∧
    ∀ s : Storage, initStorage env = some s →
      s.setB = SetB.noop ∧ s.remB = RemB.noop ∧ s.clrB = ClrB.noop ∧
      ∀ (fails : Bool) (n : Native) (ops : List Op),
        (applyOps fails (s, n) ops).2 = n := by
  have hinit := init_bridge env h1 h2
  rw [bridgeLoop_presentNil (candList env) initialStorage [] h3] at hinit
  have hss : initStorage env = some
      { backend := "memory", cache := loadCookies [] env.cookieEntries,
        setB := SetB.noop, remB := RemB.noop, clrB := ClrB.noop } := by
    simp [initStorage, hinit, initialStorage]
  constructor
  · simp [initBackend, hss]
  · intro s hs
    rw [hss] at hs
    have heq := Option.some.inj hs
    subst heq
    refine ⟨rfl, rfl, rfl, ?_⟩
    intro fails n ops
    exact applyOps_native_noop fails ops (_, n) rfl rfl rfl

/-- Witness for C5 at the all-unavailable environment. -/
theorem C5_witness : initBackend baseEnv = some "memory" :=
  (C5_memory_fallback baseEnv rfl rfl rfl).1

/-- Environment refuting C6: a bridge candidate global exists (truthy)
but exposes no callable getItem, and every other backend is
unavailable. -/
def envC6 : Env :=
  { baseEnv with androidStorageApi := { noBridge with present := true } }

/-- C6 counterexample: the claim says the backend tag moves from its
unset value to exactly one backend identifier and is never reassigned, in
every initialization run. In envC6 the run resolves after assigning the
tag twice — first to the bridge tier (script.js:125, before the getItem
check at line 134 fails), then to the memory tier (line 172). -/
theorem C6_counterexample :
    initTrace envC6 = some ["android:AndroidStorage", "memory"] := rfl

/-- Runs in which the tag is assigned exactly once: the localStorage
probe succeeds, or the IndexedDB open and load both succeed, or neither
does and either no bridge candidate is present or the first present
candidate has a callable getItem. -/
def singleAssignRun (env : Env) : Prop :=
  env.lsAvailable = true ∨
  (env.lsAvailable = false ∧ env.idbOpenOk = true ∧ env.idbLoadOk = true) ∨
  (env.lsAvailable = false ∧ env.idbOpenOk = false ∧
    (presentList (candList env) = [] ∨
     ∃ (name : String) (api : BridgeAPI) (rest2 : List (String × BridgeAPI)),
       presentList (candList env) = (name, api) :: rest2 ∧
       api.hasGetItem = true))

/-- C6 (amended): in every resolved initialization run the tag is
assigned at least once, the last assigned value is the final tag, and
facade operations never change it afterwards; it is assigned exactly once
precisely in runs without a partial probe (a bridge candidate present
without a usable read method causes an extra, later overwritten,
assignment — as would an IndexedDB open whose load then fails, though
such a run rejects instead of resolving). -/
theorem C6_amended (env : Env) (s : Storage) (tr : List String)
    (h : init env = InitResult.resolved s tr) :
    tr ≠ [] ∧ tr.getLast? = some s.backend ∧
    (singleAssignRun env → tr.length = 1) ∧
    (∀ (fails : Bool) (n : Native) (ops : List Op),
      (applyOps fails (s, n) ops).1.backend = s.backend) := by
  have hback : ∀ (fails : Bool) (n : Native) (ops : List Op),
      (applyOps fails (s, n) ops).1.backend = s.backend := by
    intro fails n ops
    exact (applyOps_fields fails ops (s, n)).1
  cases hls : env.lsAvailable with
  | true =>
    rw [init_ls env hls] at h
    injection h with hs htr
    subst hs; subst htr
    exact ⟨by simp, rfl, fun _ => rfl, hback⟩
  | false =>
    cases hidb : env.idbOpenOk with
    | true =>
      cases hload : env.idbLoadOk with
      | true =>
        rw [init_idb env hls hidb hload] at h
        injection h with hs htr
        subst hs; subst htr
        exact ⟨by simp, rfl, fun _ => rfl, hback⟩
      | false =>
        rw [init_idb_reject env hls hidb hload] at h
        exact InitResult.noConfusion h
    | false =>
      have hinit := init_bridge env hls hidb
      rcases hloop : bridgeLoop initialStorage [] (candList env) with ⟨b, s3, tr3⟩
      rw [hloop] at hinit
      cases hsel : bridgeSelect (candList env) with
      | some p =>
        obtain ⟨name, api⟩ := p
        have hb := bridgeLoop_found (candList env) initialStorage [] name api hsel
        rw [hloop] at hb
        have hbtrue : b = true := hb.1
        subst hbtrue
        have hcomb := hinit.symm.trans h
        injection hcomb with hs htr
        subst hs; subst htr
        have hs3back : s3.backend = "android:" ++ name := hb.2.1
        have hlast : tr3.getLast? = some ("android:" ++ name) := hb.2.2.2
        refine ⟨?_, ?_, ?_, hback⟩
        · intro hnil
          rw [hnil] at hlast
          exact Option.noConfusion hlast
        · rw [hlast, hs3back]
        · intro hsa
          rcases hsa with hsa | hsa | hsa
          · rw [hls] at hsa; exact Bool.noConfusion hsa
          · exact Bool.noConfusion (hidb.symm.trans hsa.2.1)
          · rcases hsa.2.2 with hpl | ⟨name2, api2, rest2, hpl, hg2⟩
            · rw [bridgeSelect, hpl] at hsel
              exact Option.noConfusion hsel
            · have hb2 := bridgeLoop_firstGet (candList env) initialStorage []
                name2 api2 rest2 hpl hg2
              rw [hloop] at hb2
              have htr3 : tr3 = [] ++ ["android:" ++ name2] := hb2.2
              rw [htr3]
              rfl
      | none =>
        have hb := bridgeLoop_notFound (candList env) initialStorage [] hsel
        rw [hloop] at hb
        have hbfalse : b = false := hb
        subst hbfalse
        have hcomb := hinit.symm.trans h
        injection hcomb with hs htr
        subst hs; subst htr
        refine ⟨by simp, ?_, ?_, hback⟩
        · rw [List.getLast?_concat]
        · intro hsa
          rcases hsa with hsa | hsa | hsa
          · rw [hls] at hsa; exact Bool.noConfusion hsa
          · exact Bool.noConfusion (hidb.symm.trans hsa.2.1)
          · rcases hsa.2.2 with hpl | ⟨name2, api2, rest2, hpl, hg2⟩
            · have hln := bridgeLoop_presentNil (candList env) initialStorage [] hpl
              rw [hloop] at hln
              have htr3 : tr3 = [] := congrArg (fun q => q.2.2) hln
              rw [htr3]
              rfl
            · have hb2 := bridgeLoop_firstGet (candList env) initialStorage []
                name2 api2 rest2 hpl hg2
              rw [hloop] at hb2
              exact Bool.noConfusion hb2.1

/-- Witness for C6 (amended) at the all-unavailable environment, whose
run performs the single memory-tier assignment. -/
theorem C6_amended_witness :
    (["memory"] : List String) ≠ [] ∧ (["memory"] : List String).length = 1 :=
  ⟨(C6_amended baseEnv
      { backend := "memory", cache := [], setB := SetB.noop,
        remB := RemB.noop, clrB := ClrB.noop } ["memory"] rfl).1,
   (C6_amended baseEnv
      { backend := "memory", cache := [], setB := SetB.noop,
        remB := RemB.noop, clrB := ClrB.noop } ["memory"] rfl).2.2.1
     (Or.inr (Or.inr ⟨rfl, rfl, Or.inl rfl⟩))⟩

/-- Environment refuting C7: localStorage available and pre-populated
with a single entry under the empty-string key. -/
def envC7bad : Env :=
  { baseEnv with lsAvailable := true, lsEntries := [("", "x")] }

/-- C7 counterexample: the claim says the loader fully enumerates all
existing entries of the selected backend into the cache. With
localStorage pre-populated with the entry ("", "x"), the run selects the
localStorage tier, yet after readiness getItem("") is null: the bulk-load
loop's key-truthiness check `if (k)` (script.js:47) skips the
empty-string key. -/
theorem C7_counterexample :
    envC7bad.lsEntries = [("", "x")] ∧
    initBackend envC7bad = some "localStorage" ∧
    initGet envC7bad "" = some (Except.ok none) := ⟨rfl, rfl, rfl⟩

/-- C7 (amended): bulk-load fidelity for every entry whose key is
nonempty, distinct from the probe's temporary test key, and not
__proto__, from a backend holding no entry keyed hasOwnProperty — such
entries, for the localStorage tier, and all such entries, for the
IndexedDB tier, are in the cache when readiness resolves, with their
stored values, without any setItem call. Entries under the empty-string
key are skipped by the localStorage loader, a pre-existing entry under
the probe key is destroyed by the probe round trip, an entry keyed
__proto__ is dropped by the assignment's inherited accessor, and an entry
keyed hasOwnProperty, once loaded, makes every getItem call throw. -/
theorem C7_amended (env : Env) (k v : String) :
    (env.lsAvailable = true → (env.lsEntries.map Prod.fst).Nodup →
      (k, v) ∈ env.lsEntries → k ≠ "" → k ≠ testKey → k ≠ "__proto__" →
      "hasOwnProperty" ∉ env.lsEntries.map Prod.fst →
      initGet env k = some (Except.ok (some v))) ∧
    (env.lsAvailable = false → env.idbOpenOk = true → env.idbLoadOk = true →
      (env.idbEntries.map Prod.fst).Nodup → (k, v) ∈ env.idbEntries →
      k ≠ "__proto__" → "hasOwnProperty" ∉ env.idbEntries.map Prod.fst →
      initGet env k = some (Except.ok (some v))) := by
  constructor
  · intro h1 hnd hmem hk htk hkp hno
    have hinit := init_ls env h1
    have hmem2 : (k, v) ∈ lsAfterProbe env.lsEntries := by
      simp only [lsAfterProbe, List.mem_filter]
      exact ⟨hmem, by simpa using htk⟩
    have hnd2 : ((lsAfterProbe env.lsEntries).map Prod.fst).Nodup := by
      exact List.Sublist.nodup ((List.filter_sublist _).map Prod.fst) hnd
    have hno2 : "hasOwnProperty" ∉ (lsAfterProbe env.lsEntries).map Prod.fst := by
      intro hc
      exact hno (((List.filter_sublist _).map Prod.fst).subset hc)
    have hw : cacheHasOwn (loadLS [] (lsAfterProbe env.lsEntries))
        "hasOwnProperty" = false := by
      unfold cacheHasOwn
      rw [loadLS_get_nmem _ _ _ hno2]
      rfl
    have hget := loadLS_get_mem (lsAfterProbe env.lsEntries) [] k v hmem2 hnd2 hk hkp
    have hgi : getItem
        { backend := "localStorage", cache := loadLS [] (lsAfterProbe env.lsEntries),
          setB := SetB.lsSet, remB := RemB.lsRem, clrB := ClrB.lsClr } k
        = Except.ok (some v) := by
      rw [getItem_eq _ _ hw]
      show Except.ok (cacheGet (loadLS [] (lsAfterProbe env.lsEntries)) k)
        = Except.ok (some v)
      rw [hget]
    simp [initGet, initStorage, hinit, hgi]
  · intro h1 h2 h3 hnd hmem hkp hno
    have hinit := init_idb env h1 h2 h3
    have hw : cacheHasOwn (loadIDB [] env.idbEntries) "hasOwnProperty" = false := by
      unfold cacheHasOwn
      rw [loadIDB_get_nmem _ _ _ hno]
      rfl
    have hget := loadIDB_get_mem env.idbEntries [] k v hmem hnd hkp
    have hgi : getItem
        { backend := "indexedDB", cache := loadIDB [] env.idbEntries,
          setB := SetB.idbSet, remB := RemB.idbRem, clrB := ClrB.idbClr } k
        = Except.ok (some v) := by
      rw [getItem_eq _ _ hw]
      show Except.ok (cacheGet (loadIDB [] env.idbEntries) k) = Except.ok (some v)
      rw [hget]
    simp [initGet, initStorage, hinit, hgi]

/-- Environment for the C7 witness: localStorage pre-populated with the
two entries of the claim. -/
def envC7ls : Env :=
  { baseEnv with lsAvailable := true, lsEntries := [("a", "1"), ("b", "2")] }

/-- Environment for the C7 witness: IndexedDB pre-populated with the two
entries of the claim. -/
def envC7idb : Env :=
  { baseEnv with
    idbOpenOk := true
    idbLoadOk := true
    idbEntries := [("a", "1"), ("b", "2")] }

/-- Witness for C7 (amended): the pre-populated entries of the claim are
served from the cache after readiness, on both tiers. -/
theorem C7_amended_witness :
    initGet envC7ls "a" = some (Except.ok (some "1")) ∧
    initGet envC7ls "b" = some (Except.ok (some "2")) ∧
    initGet envC7idb "a" = some (Except.ok (some "1")) ∧
    initGet envC7idb "b" = some (Except.ok (some "2")) :=
  ⟨(C7_amended envC7ls "a" "1").1 rfl (by decide) (by decide) (by decide)
     (by decide) (by decide) (by decide),
   (C7_amended envC7ls "b" "2").1 rfl (by decide) (by decide) (by decide)
     (by decide) (by decide) (by decide),
   (C7_amended envC7idb "a" "1").2 rfl rfl rfl (by decide) (by decide)
     (by decide) (by decide),
   (C7_amended envC7idb "b" "2").2 rfl rfl rfl (by decide) (by decide)
     (by decide) (by decide)⟩

/-- C8: when a bridge candidate is selected, only the fixed well-known
key list is read during load: any key outside that list reads as null
after readiness, and every well-known key whose bridge read yields a
defined value is cached with that value. -/
theorem C8_bridge_partial_load (env : Env) (name : String) (api : BridgeAPI)
    (h1 : env.lsAvailable = false) (h2 : env.idbOpenOk = false)
    (hsel : bridgeSelect (candList env) = some (name, api)) (k : String) :
    (k ∉ keysToTry → initGet env k = some (Except.ok none)) ∧
    (∀ v : String, k ∈ keysToTry → api.read k = some v →
      initGet env k = some (Except.ok (some v))) := by
  have hinit := init_bridge env h1 h2
  rcases hloop : bridgeLoop initialStorage [] (candList env) with ⟨b, s3, tr3⟩
  rw [hloop] at hinit
  have hb := bridgeLoop_found (candList env) initialStorage [] name api hsel
  rw [hloop] at hb
  have hbtrue : b = true := hb.1
  subst hbtrue
  have hcache : s3.cache = loadBridge [] api.read := hb.2.2.1
  have hw : cacheHasOwn s3.cache "hasOwnProperty" = false := by
    rw [hcache]
    unfold cacheHasOwn loadBridge
    rw [loadKeys_nmem api.read keysToTry [] "hasOwnProperty" (by decide)]
    rfl
  constructor
  · intro hk
    have hgi : getItem s3 k = Except.ok none := by
      rw [getItem_eq _ _ hw, hcache]
      show Except.ok (cacheGet (loadKeys api.read [] keysToTry) k)
        = Except.ok none
      rw [loadKeys_nmem api.read keysToTry [] k hk]
      rfl
    simp [initGet, initStorage, hinit, hgi]
  · intro v hk hr
    have hkp : k ≠ "__proto__" := by
      intro he
      subst he
      exact absurd hk (by decide)
    have hgi : getItem s3 k = Except.ok (some v) := by
      rw [getItem_eq _ _ hw, hcache]
      show Except.ok (cacheGet (loadKeys api.read [] keysToTry) k)
        = Except.ok (some v)
      rw [loadKeys_mem api.read keysToTry [] k v hk (by decide) hr hkp]
    simp [initGet, initStorage, hinit, hgi]

/-- The bridge object of the C8 witness: exposes the well-known key
migstar_user with value 42 and the unknown key x with value 9. -/
def apiC8 : BridgeAPI :=
  { present := true, hasSetItem := true, hasSet := false, hasGetItem := true,
    hasRemoveItem := false,
    read := fun k => if k = "migstar_user" then some "42"
                     else if k = "x" then some "9" else none }

/-- Environment for the C8 witness: only the Android candidate present. -/
def envC8 : Env := { baseEnv with androidApi := apiC8 }

/-- Witness for C8: the unknown key x reads as null though the bridge
exposes it, while the well-known key resolves to its bridge value. -/
theorem C8_witness :
    initGet envC8 "x" = some (Except.ok none) ∧
    initGet envC8 "migstar_user" = some (Except.ok (some "42")) :=
  ⟨(C8_bridge_partial_load envC8 "Android" apiC8 rfl rfl rfl "x").1 (by decide),
   (C8_bridge_partial_load envC8 "Android" apiC8 rfl rfl rfl "migstar_user").2
     "42" (by decide) rfl⟩

/-- C9: during the terminal in-memory fallback, the cookie-style seed is
parsed defensively — an entry whose key part or value part fails to
decode contributes no cache entry and does not abort the loading of the
remaining entries. -/
theorem C9_malformed_cookie_skipped (c : Cache) (xs ys : List String)
    (e : String) (h : entryMalformed e) :
    cookieLoadEntry (loadCookies c xs) e = loadCookies c xs ∧
    loadCookies c (xs ++ e :: ys) = loadCookies c (xs ++ ys) := by
  constructor
  · exact cookieLoadEntry_malformed _ e h
  · rw [loadCookies_append, loadCookies_append]
    show loadCookies (cookieLoadEntry (loadCookies c xs) e) ys = _
    rw [cookieLoadEntry_malformed _ e h]

/-- Witness for C9: a malformed percent escape in the middle entry leaves
the load of the surrounding entries unaffected. -/
theorem C9_witness :
    loadCookies [] (["a=1"] ++ "%zz=1" :: ["b=2"]) =
      loadCookies [] (["a=1"] ++ ["b=2"]) :=
  (C9_malformed_cookie_skipped [] ["a=1"] ["b=2"] "%zz=1"
    (Or.inl (by decide))).2

/-- C10 counterexample: the claim says a key whose stored value is the
empty string reads back as the empty string, and that keys naming
inherited Object.prototype properties behave uniformly; but storing any
value under the key hasOwnProperty shadows the method itself, so the
following getItem throws a TypeError instead of returning the empty
string — and so does getItem at every other key, such as the never
written toString. -/
theorem C10_counterexample :
    getItem (applyOps false (initialStorage, emptyNative)
      [Op.set "hasOwnProperty" (JSVal.str "")]).1 "hasOwnProperty"
      = Except.error typeErrorMsg ∧
    getItem (applyOps false (initialStorage, emptyNative)
      [Op.set "hasOwnProperty" (JSVal.str "x")]).1 "toString"
      = Except.error typeErrorMsg := ⟨rfl, rfl⟩

/-- C10 (amended): getItem decides absence through the cache object's
hasOwnProperty call. While no own property named hasOwnProperty is
stored, every key with no surviving write reads as null — even a key
naming an inherited Object.prototype property, which an unguarded object
lookup would find on the prototype — and a key other than __proto__ and
hasOwnProperty whose stored value is the empty string reads as the empty
string, not null, as a truthiness test would have it. Storing any value
under the key hasOwnProperty itself shadows the method, and every
subsequent getItem call throws a TypeError instead. -/
theorem C10_own_property_check (fails : Bool) (s : Storage) (n : Native)
    (ops : List Op) (k : String)
    (h0 : cacheGet s.cache k = none) (h1 : lastOpValue ops k = none)
    (hw : cacheHasOwn (applyOps fails (s, n) ops).1.cache
      "hasOwnProperty" = false) :
    getItem (applyOps fails (s, n) ops).1 k = Except.ok none ∧
    (k ≠ "__proto__" → k ≠ "hasOwnProperty" →
      getItem (applyOps fails (s, n)
        (ops ++ [Op.set k (JSVal.str "")])).1 k = Except.ok (some "")) ∧
    (∀ v : JSVal,
      getItem (applyOps fails (s, n)
        (ops ++ [Op.set "hasOwnProperty" v])).1 k
        = Except.error typeErrorMsg) := by
  refine ⟨?_, ?_, ?_⟩
  · rw [getItem_eq _ _ hw, cacheGet_applyOps_none fails ops (s, n) k h1, h0]
  · intro hk2 hk3
    rw [applyOps_append]
    have hw2 : cacheHasOwn (applyOp fails (applyOps fails (s, n) ops)
        (Op.set k (JSVal.str ""))).1.cache "hasOwnProperty" = false := by
      show cacheHasOwn (cacheSet (applyOps fails (s, n) ops).1.cache k
        (jsString (JSVal.str ""))) "hasOwnProperty" = false
      unfold cacheHasOwn
      rw [cacheGet_set_ne _ _ _ _ hk3]
      exact hw
    show getItem (applyOp fails (applyOps fails (s, n) ops)
      (Op.set k (JSVal.str ""))).1 k = Except.ok (some "")
    rw [getItem_eq _ _ hw2]
    show Except.ok (cacheGet (cacheSet (applyOps fails (s, n) ops).1.cache k
      (jsString (JSVal.str ""))) k) = Except.ok (some "")
    rw [cacheGet_set_self _ _ _ hk2]
    rfl
  · intro v
    rw [applyOps_append]
    have hw2 : cacheHasOwn (applyOp fails (applyOps fails (s, n) ops)
        (Op.set "hasOwnProperty" v)).1.cache "hasOwnProperty" = true := by
      show cacheHasOwn (cacheSet (applyOps fails (s, n) ops).1.cache
        "hasOwnProperty" (jsString v)) "hasOwnProperty" = true
      unfold cacheHasOwn
      rw [cacheGet_set_self _ _ _ (by decide)]
      rfl
    show getItem (applyOp fails (applyOps fails (s, n) ops)
      (Op.set "hasOwnProperty" v)).1 k = Except.error typeErrorMsg
    exact getItem_throw _ _ hw2

/-- Witness for C10 (amended) at the inherited property name toString and
a stored empty string. -/
theorem C10_witness :
    ("toString" ∈ protoProps) ∧
    getItem (applyOps false (initialStorage, emptyNative)
      [Op.set "other" (JSVal.str "1")]).1 "toString" = Except.ok none ∧
    getItem (applyOps false (initialStorage, emptyNative)
      ([Op.set "other" (JSVal.str "1")] ++
       [Op.set "toString" (JSVal.str "")])).1 "toString"
      = Except.ok (some "") :=
  ⟨by decide,
   (C10_own_property_check false initialStorage emptyNative
     [Op.set "other" (JSVal.str "1")] "toString" rfl rfl rfl).1,
   (C10_own_property_check false initialStorage emptyNative
     [Op.set "other" (JSVal.str "1")] "toString" rfl rfl rfl).2.1
     (by decide) (by decide)⟩

end MigStar

